import Mathlib

/-!
Verification of the MCP chat repository: a shallow embedding of the
tool-augmented conversation orchestrator (`app.py`, `client1.py`), the
math tool server (`server.py`), the demo dice server (`main.py`) and the
configuration loader (`config_loader.py`), together with theorems that
settle the specification claims.

External collaborators (the Gemini model backend, `json.loads`, the MCP
tool callables, `random.randint`) are parameters of the embedded
functions: the code under verification only drives them through their
interfaces.
-/

namespace McpChat

/-! ### Data model

Messages as used by `app.py`: `SystemMessage`, `HumanMessage`,
`AIMessage` (content plus a possibly empty `tool_calls` list) and
`ToolMessage` (a `tool_call_id` and a JSON content).  The JSON content
of a `ToolMessage` is either `json.dumps(res)` for a successful tool
result (modelled as the serialized result string) or
`json.dumps({"error": msg})` for a captured error; the two shapes are
kept apart by the `Payload` type. -/

/-- Argument mapping form (a JSON object of argument name to value,
values kept as serialized strings). -/
abbrev ArgsMap := List (String × String)

/-- The `args` field of a tool call as produced by the model backend:
absent or `None`, a structured mapping, or a raw pre-serialized string. -/
inductive PyArgs where
  | noneV : PyArgs
  | dict : ArgsMap → PyArgs
  | str : String → PyArgs
deriving DecidableEq, Repr

/-- What a tool callable actually receives after the defensive argument
normalization: a structured mapping, or the raw string passed through. -/
inductive ToolInput where
  | structured : ArgsMap → ToolInput
  | raw : String → ToolInput
deriving DecidableEq, Repr

/-- A tool callable: takes the (normalized) arguments and either returns
a result (already serialized, standing for the Python return value that
`json.dumps` renders) or raises, carrying the exception text. -/
abbrev ToolFn := ToolInput → Except String String

/-- One entry of the `tool_calls` list of a model response:
`{"name": ..., "args": ..., "id": ...}`. -/
structure ToolCall where
  id : String
  name : String
  args : PyArgs
deriving DecidableEq, Repr

/-- Content of a `ToolMessage`: `json.dumps(res)` for a successful tool
invocation, `json.dumps({"error": msg})` for a captured per-call error. -/
inductive Payload where
  | result : String → Payload
  | error : String → Payload
deriving DecidableEq, Repr

/-- A message of the conversation history. -/
inductive Message where
  | system : String → Message
  | user : String → Message
  | assistant : (content : String) → (tool_calls : List ToolCall) → Message
  | tool : (tool_call_id : String) → (content : Payload) → Message
deriving DecidableEq, Repr

/-- A model backend response: text content plus requested tool calls
(empty for a plain reply). -/
structure ModelResponse where
  content : String
  tool_calls : List ToolCall
deriving DecidableEq, Repr

/-- The `callId` carried by a message: `some` exactly for `ToolMessage`s. -/
def Message.callIdOf : Message → Option String
  | .tool id _ => some id
  | _ => none

/-- Whether a message is a `ToolMessage` (a `ToolResult` in spec terms). -/
def Message.isToolResult : Message → Bool
  | .tool _ _ => true
  | _ => false

/-! ### Strings used by `app.py` error payloads

The source messages are f-strings that quote the tool name between
single-quote characters; `sq` is that character (code point 39). -/

/-- The single-quote character used by the f-strings of `app.py`. -/
def sq : String := String.singleton (Char.ofNat 39)

/-- Error text of the `KeyError` branch of `process_user_message`:
`f"Tool hni not found"` with the name single-quoted. -/
def toolNotFoundMsg (name : String) : String :=
  "Tool " ++ sq ++ name ++ sq ++ " not found"

/-- Error text of the generic exception branch of `process_user_message`:
`f"Error executing tool hni: hei"` with the name single-quoted. -/
def toolExecErrorMsg (name e : String) : String :=
  "Error executing tool " ++ sq ++ name ++ sq ++ ": " ++ e

/-- The system prompt installed by `initialize_app` (`app.py`). -/
def SYSTEM_PROMPT : String :=
  "You have access to tools. When you choose to call a tool, do not narrate status updates. " ++
  "After tools run, return only a concise final answer."

/-! ### Tool dispatch (`app.py`, `process_user_message`, lines 215-255)

`args = tc.get("args") or {}`: a missing/`None`/falsy `args` becomes the
empty mapping (an empty raw string is falsy too).  A non-empty raw
string is decoded with `json.loads` (parameter `dec`, the external
decoder); on decode failure the raw string is passed through unchanged.
Lookup `tool_by_name[name]` raising `KeyError` is the `none` case of the
registry parameter; an exception from the tool itself is the `.error`
case of `ToolFn`.  Each branch appends exactly one `ToolMessage`. -/

/-- Normalization of the `args` field before invocation. -/
def normalizeArgs (dec : String → Option ArgsMap) : PyArgs → ToolInput
  | .noneV => .structured []
  | .dict m => .structured m
  | .str s =>
    if s = "" then .structured []
    else
      match dec s with
      | some m => .structured m
      | none => .raw s

/-- The body of the per-call `try/except` of `process_user_message`:
produces the single `ToolMessage` appended for the call `tc`. -/
def processToolCall (tool_by_name : String → Option ToolFn)
    (dec : String → Option ArgsMap) (tc : ToolCall) : Message :=
  let args := normalizeArgs dec tc.args
  match tool_by_name tc.name with
  | none => .tool tc.id (.error (toolNotFoundMsg tc.name))
  | some tool =>
    match tool args with
    | .ok res => .tool tc.id (.result res)
    | .error e => .tool tc.id (.error (toolExecErrorMsg tc.name e))

/-- The tool-dispatch loop of `process_user_message`: the `tool_msgs`
list built by iterating the requested calls in order. -/
def execute_tool_calls (tool_by_name : String → Option ToolFn)
    (dec : String → Option ArgsMap) (calls : List ToolCall) : List Message :=
  calls.map (processToolCall tool_by_name dec)

/-! ### The turn orchestrator (`app.py`, `process_user_message`)

The Streamlit session history is threaded explicitly.  The two model
invocations (`llm_with_tools.invoke` and the final `llm.invoke`) are
parameters returning `Except`: `.error` is a raised
`ModelInvocationError`.  The outer `try/except` of the source catches
any exception, shows an error and returns, leaving the history with
whatever had been appended up to that point; the embedding returns the
resulting history together with a flag telling whether the turn
completed normally. -/

/-- One turn of `process_user_message`: returns the history after the
turn and `true` iff no exception interrupted the turn. -/
def process_user_message
    (llm_with_tools llm : List Message → Except String ModelResponse)
    (tool_by_name : String → Option ToolFn) (dec : String → Option ArgsMap)
    (history : List Message) (user_text : String) : List Message × Bool :=
  let h1 := history ++ [Message.user user_text]
  match llm_with_tools h1 with
  | .error _ => (h1, false)
  | .ok first =>
    match first.tool_calls with
    | [] => (h1 ++ [Message.assistant first.content []], true)
    | _ :: _ =>
      let h2 := h1 ++ [Message.assistant first.content first.tool_calls]
      let tool_msgs := execute_tool_calls tool_by_name dec first.tool_calls
      let h3 := h2 ++ tool_msgs
      match llm h3 with
      | .error _ => (h3, false)
      | .ok final => (h3 ++ [Message.assistant final.content []], true)

/-! ### History rendering (`app.py`, `render_chat_history`, lines 172-183)

Renders `HumanMessage`s and `AIMessage`s without `tool_calls`; skips
`AIMessage`s carrying `tool_calls`, and `SystemMessage`/`ToolMessage`
match no branch.  The rendered output is modelled as the ordered list of
(role, markdown content) pairs passed to `st.chat_message`/`st.markdown`. -/

/-- The sequence of chat bubbles rendered by `render_chat_history`. -/
def render_chat_history (history : List Message) : List (String × String) :=
  history.filterMap fun msg =>
    match msg with
    | .user t => some ("user", t)
    | .assistant content tool_calls =>
      match tool_calls with
      | [] => some ("assistant", content)
      | _ :: _ => none
    | _ => none

/-! ### Helper lemmas -/

/-- Every message produced by the per-call dispatch carries the id of
the call it answers, whatever the registry and tool behaviour. -/
theorem processToolCall_callIdOf (tool_by_name : String → Option ToolFn)
    (dec : String → Option ArgsMap) (tc : ToolCall) :
    (processToolCall tool_by_name dec tc).callIdOf = some tc.id := by
  unfold processToolCall
  cases htb : tool_by_name tc.name with
  | none => simp [Message.callIdOf]
  | some tool =>
    cases hres : tool (normalizeArgs dec tc.args) with
    | ok res => simp [hres, Message.callIdOf]
    | error e => simp [hres, Message.callIdOf]

/-- Every message produced by the per-call dispatch is a `ToolMessage`. -/
theorem processToolCall_isToolResult (tool_by_name : String → Option ToolFn)
    (dec : String → Option ArgsMap) (tc : ToolCall) :
    (processToolCall tool_by_name dec tc).isToolResult = true := by
  unfold processToolCall
  cases htb : tool_by_name tc.name with
  | none => simp [Message.isToolResult]
  | some tool =>
    cases hres : tool (normalizeArgs dec tc.args) with
    | ok res => simp [hres, Message.isToolResult]
    | error e => simp [hres, Message.isToolResult]

/-- The dispatch loop yields one message per requested call. -/
theorem execute_tool_calls_length (tool_by_name : String → Option ToolFn)
    (dec : String → Option ArgsMap) (calls : List ToolCall) :
    (execute_tool_calls tool_by_name dec calls).length = calls.length :=
  List.length_map _ _

/-- The ids of the dispatched messages are the ids of the requested
calls, position by position. -/
theorem execute_tool_calls_ids (tool_by_name : String → Option ToolFn)
    (dec : String → Option ArgsMap) (calls : List ToolCall) :
    (execute_tool_calls tool_by_name dec calls).map Message.callIdOf
      = calls.map (fun c => some c.id) := by
  unfold execute_tool_calls
  rw [List.map_map]
  exact List.map_congr_left fun tc _ => processToolCall_callIdOf tool_by_name dec tc

/-- Every message produced by the dispatch loop is a `ToolMessage`. -/
theorem execute_tool_calls_all_tool (tool_by_name : String → Option ToolFn)
    (dec : String → Option ArgsMap) (calls : List ToolCall) :
    (execute_tool_calls tool_by_name dec calls).all Message.isToolResult = true := by
  rw [List.all_eq_true]
  intro m hm
  rcases List.mem_map.mp hm with ⟨tc, _, rfl⟩
  exact processToolCall_isToolResult tool_by_name dec tc

/-- Reduction of `process_user_message` when the first model call
succeeds with at least one requested tool call and the final model call
succeeds. -/
theorem process_user_message_tools_eq
    (llm_with_tools llm : List Message → Except String ModelResponse)
    (tool_by_name : String → Option ToolFn) (dec : String → Option ArgsMap)
    (history : List Message) (user_text : String) (first final : ModelResponse)
    (h1 : llm_with_tools (history ++ [Message.user user_text]) = .ok first)
    (h2 : first.tool_calls ≠ [])
    (h3 : llm (history ++ [Message.user user_text]
            ++ [Message.assistant first.content first.tool_calls]
            ++ execute_tool_calls tool_by_name dec first.tool_calls) = .ok final) :
    process_user_message llm_with_tools llm tool_by_name dec history user_text =
      (history ++ [Message.user user_text]
        ++ [Message.assistant first.content first.tool_calls]
        ++ execute_tool_calls tool_by_name dec first.tool_calls
        ++ [Message.assistant final.content []], true) := by
  obtain ⟨content, calls⟩ := first
  dsimp only at h2 h3 ⊢
  cases calls with
  | nil => exact absurd rfl h2
  | cons a as =>
    simp only [process_user_message]
    rw [h1]
    dsimp only
    simp only [List.append_assoc] at h3 ⊢
    rw [h3]

/-- Reduction of `process_user_message` when the first model call fails. -/
theorem process_user_message_first_error
    (llm_with_tools llm : List Message → Except String ModelResponse)
    (tool_by_name : String → Option ToolFn) (dec : String → Option ArgsMap)
    (history : List Message) (user_text : String) (e : String)
    (h1 : llm_with_tools (history ++ [Message.user user_text]) = .error e) :
    process_user_message llm_with_tools llm tool_by_name dec history user_text =
      (history ++ [Message.user user_text], false) := by
  simp only [process_user_message]
  rw [h1]

/-- Reduction of `process_user_message` when the first model call
requests tools but the final model call fails. -/
theorem process_user_message_final_error
    (llm_with_tools llm : List Message → Except String ModelResponse)
    (tool_by_name : String → Option ToolFn) (dec : String → Option ArgsMap)
    (history : List Message) (user_text : String) (first : ModelResponse) (e : String)
    (h1 : llm_with_tools (history ++ [Message.user user_text]) = .ok first)
    (h2 : first.tool_calls ≠ [])
    (h3 : llm (history ++ [Message.user user_text]
            ++ [Message.assistant first.content first.tool_calls]
            ++ execute_tool_calls tool_by_name dec first.tool_calls) = .error e) :
    process_user_message llm_with_tools llm tool_by_name dec history user_text =
      (history ++ [Message.user user_text]
        ++ [Message.assistant first.content first.tool_calls]
        ++ execute_tool_calls tool_by_name dec first.tool_calls, false) := by
  obtain ⟨content, calls⟩ := first
  dsimp only at h2 h3 ⊢
  cases calls with
  | nil => exact absurd rfl h2
  | cons a as =>
    simp only [process_user_message]
    rw [h1]
    dsimp only
    simp only [List.append_assoc] at h3 ⊢
    rw [h3]

/-! ### Spec-side rendering predicate (for the refinement claim C6)

Transcribed from the specification sentence: the presentation
collaborator renders only `User` messages and terminal `Assistant`
replies (those with empty `requestedCalls`). -/

/-- Modelled from the spec: whether the presentation collaborator may
display a message. -/
def specVisible : Message → Bool
  | .user _ => true
  | .assistant _ [] => true
  | _ => false

/-- Modelled from the spec: the chat bubble shown for a visible message
(role and text); the value on non-visible messages is irrelevant. -/
def specBubble : Message → String × String
  | .user t => ("user", t)
  | .assistant content _ => ("assistant", content)
  | _ => ("", "")

/-! ### Concrete fixtures used by witnesses and counterexamples -/

/-- A demo tool callable: serializes a structured mapping, echoes a raw
string input with a marker. -/
def demoTool : ToolFn := fun input =>
  match input with
  | .structured m => .ok (String.intercalate "," (m.map fun p => p.1 ++ "=" ++ p.2))
  | .raw s => .ok ("raw:" ++ s)

/-- A demo registry that resolves only the name "add". -/
def demoRegistry : String → Option ToolFn := fun name =>
  if name = "add" then some demoTool else none

/-- A demo stand-in for the external JSON decoder: decodes only the
empty object. -/
def demoDecode : String → Option ArgsMap := fun s =>
  if s = "\x7b\x7d" then some [] else none

/-- A fixed tool call requesting the "add" tool. -/
def wFirstCall : ToolCall := ⟨"call_1", "add", .dict [("a", "25"), ("b", "17")]⟩

/-- A model response requesting one tool call. -/
def wFirstResp : ModelResponse := ⟨"", [wFirstCall]⟩

/-- A model backend that always requests `wFirstCall`. -/
def lwtTools : List Message → Except String ModelResponse := fun _ => .ok wFirstResp

/-- A model backend that always answers with a plain final reply. -/
def llmFinal : List Message → Except String ModelResponse := fun _ =>
  .ok ⟨"The answer is 42", []⟩

/-- A model backend that always returns an empty reply with no calls. -/
def lwtEmptyReply : List Message → Except String ModelResponse := fun _ => .ok ⟨"", []⟩

/-- A model backend whose invocation always raises. -/
def lwtFail : List Message → Except String ModelResponse := fun _ =>
  .error "model backend unreachable"

/-- The initial history of a session, seeded with the system prompt. -/
def histSeed : List Message := [Message.system SYSTEM_PROMPT]

/-! ### Claims about the orchestrator -/

/-- C1: for a turn whose first model response requests N >= 1 tool calls
(and whose two model invocations return), the orchestrator appends the
assistant message carrying the requests, then exactly N `ToolMessage`s
whose `callId`s match the N requests one-for-one in request order, then
exactly one final assistant message, and the turn completes. -/
theorem turn_tool_results_matched_then_final
    (llm_with_tools llm : List Message → Except String ModelResponse)
    (tool_by_name : String → Option ToolFn) (dec : String → Option ArgsMap)
    (history : List Message) (user_text : String) (first final : ModelResponse)
    (h1 : llm_with_tools (history ++ [Message.user user_text]) = .ok first)
    (h2 : first.tool_calls ≠ [])
    (h3 : llm (history ++ [Message.user user_text]
            ++ [Message.assistant first.content first.tool_calls]
            ++ execute_tool_calls tool_by_name dec first.tool_calls) = .ok final) :
    process_user_message llm_with_tools llm tool_by_name dec history user_text =
      (history ++ [Message.user user_text]
        ++ [Message.assistant first.content first.tool_calls]
        ++ execute_tool_calls tool_by_name dec first.tool_calls
        ++ [Message.assistant final.content []], true)
    ∧ (execute_tool_calls tool_by_name dec first.tool_calls).length
        = first.tool_calls.length
    ∧ (execute_tool_calls tool_by_name dec first.tool_calls).map Message.callIdOf
        = first.tool_calls.map (fun c => some c.id)
    ∧ (execute_tool_calls tool_by_name dec first.tool_calls).all Message.isToolResult
        = true :=
  ⟨process_user_message_tools_eq llm_with_tools llm tool_by_name dec history
      user_text first final h1 h2 h3,
   execute_tool_calls_length tool_by_name dec first.tool_calls,
   execute_tool_calls_ids tool_by_name dec first.tool_calls,
   execute_tool_calls_all_tool tool_by_name dec first.tool_calls⟩

/-- Witness for C1 at a concrete turn with one requested call. -/
theorem turn_tool_results_matched_then_final_witness :
    process_user_message lwtTools llmFinal demoRegistry demoDecode histSeed
        "What is 25 + 17?" =
      (histSeed ++ [Message.user "What is 25 + 17?"]
        ++ [Message.assistant "" [wFirstCall]]
        ++ execute_tool_calls demoRegistry demoDecode [wFirstCall]
        ++ [Message.assistant "The answer is 42" []], true)
    ∧ (execute_tool_calls demoRegistry demoDecode [wFirstCall]).length
        = [wFirstCall].length
    ∧ (execute_tool_calls demoRegistry demoDecode [wFirstCall]).map Message.callIdOf
        = [wFirstCall].map (fun c => some c.id)
    ∧ (execute_tool_calls demoRegistry demoDecode [wFirstCall]).all Message.isToolResult
        = true :=
  turn_tool_results_matched_then_final lwtTools llmFinal demoRegistry demoDecode
    histSeed "What is 25 + 17?" wFirstResp ⟨"The answer is 42", []⟩
    rfl (by decide) rfl

/-- C2: dispatching any batch of requested calls against any registry
yields one result per request, with the `callId`s equal position by
position to the ids of the requests, in request order (the loop of the
source is sequential, so completion order is request order). -/
theorem dispatch_preserves_length_and_order :
    ∀ (tool_by_name : String → Option ToolFn) (dec : String → Option ArgsMap)
      (calls : List ToolCall),
      (execute_tool_calls tool_by_name dec calls).length = calls.length
      ∧ (execute_tool_calls tool_by_name dec calls).map Message.callIdOf
          = calls.map (fun c => some c.id) :=
  fun tool_by_name dec calls =>
    ⟨execute_tool_calls_length tool_by_name dec calls,
     execute_tool_calls_ids tool_by_name dec calls⟩

/-- C5 counterexample: when the first model invocation raises, the turn
fails but the `User` message has already been appended, so the history
is not left exactly as it was before the turn. -/
theorem model_failure_counterexample :
    (process_user_message lwtFail llmFinal demoRegistry demoDecode histSeed "hi").2
      = false
    ∧ (process_user_message lwtFail llmFinal demoRegistry demoDecode histSeed "hi").1
      ≠ histSeed := by
  refine ⟨rfl, ?_⟩
  decide

/-- C5 (amended): a failed model invocation fails the turn and appends
no further message, but the messages appended before the failure remain
in the history: the `User` message when the first invocation fails, and
additionally the assistant-with-calls message and all tool results when
the final invocation fails; no final assistant message is appended. -/
theorem model_failure_keeps_appended_messages
    (llm_with_tools llm : List Message → Except String ModelResponse)
    (tool_by_name : String → Option ToolFn) (dec : String → Option ArgsMap)
    (history : List Message) (user_text : String) (first : ModelResponse)
    (e1 e2 : String) :
    (llm_with_tools (history ++ [Message.user user_text]) = .error e1 →
      process_user_message llm_with_tools llm tool_by_name dec history user_text =
        (history ++ [Message.user user_text], false))
    ∧ (llm_with_tools (history ++ [Message.user user_text]) = .ok first →
       first.tool_calls ≠ [] →
       llm (history ++ [Message.user user_text]
          ++ [Message.assistant first.content first.tool_calls]
          ++ execute_tool_calls tool_by_name dec first.tool_calls) = .error e2 →
       process_user_message llm_with_tools llm tool_by_name dec history user_text =
         (history ++ [Message.user user_text]
           ++ [Message.assistant first.content first.tool_calls]
           ++ execute_tool_calls tool_by_name dec first.tool_calls, false)) :=
  ⟨fun h1 => process_user_message_first_error llm_with_tools llm tool_by_name dec
      history user_text e1 h1,
   fun h1 h2 h3 => process_user_message_final_error llm_with_tools llm tool_by_name
      dec history user_text first e2 h1 h2 h3⟩

/-- Witness for the amended C5 at a concrete failing first invocation. -/
theorem model_failure_keeps_appended_messages_witness :
    lwtFail (histSeed ++ [Message.user "hi"]) = .error "model backend unreachable"
    ∧ process_user_message lwtFail llmFinal demoRegistry demoDecode histSeed "hi" =
        (histSeed ++ [Message.user "hi"], false) :=
  ⟨rfl,
   (model_failure_keeps_appended_messages lwtFail llmFinal demoRegistry demoDecode
      histSeed "hi" wFirstResp "model backend unreachable" "x").1 rfl⟩

/-- C6: the rendering component displays exactly the `User` messages and
the `Assistant` messages without tool-call requests, in history order;
`System` messages, `ToolMessage`s and tool-call-bearing assistant
messages are never displayed.  `specVisible` and `specBubble` transcribe
the specification sentence; `render_chat_history` embeds the source. -/
theorem render_only_user_and_plain_assistant :
    ∀ history : List Message,
      render_chat_history history
        = (history.filter specVisible).map specBubble := by
  intro history
  induction history with
  | nil => rfl
  | cons m rest ih =>
    cases m with
    | system t =>
      simpa [render_chat_history, List.filterMap_cons, List.filter_cons,
        specVisible, specBubble] using ih
    | user t =>
      simpa [render_chat_history, List.filterMap_cons, List.filter_cons,
        specVisible, specBubble] using ih
    | assistant c calls =>
      cases calls with
      | nil =>
        simpa [render_chat_history, List.filterMap_cons, List.filter_cons,
          specVisible, specBubble] using ih
      | cons a as =>
        simpa [render_chat_history, List.filterMap_cons, List.filter_cons,
          specVisible, specBubble] using ih
    | tool id p =>
      simpa [render_chat_history, List.filterMap_cons, List.filter_cons,
        specVisible, specBubble] using ih

/-- The error message for an unresolved tool name always carries the
words "not found". -/
theorem notFound_in_msg (name : String) :
    "not found".toList <:+: (toolNotFoundMsg name).toList := by
  have h1 : "not found".toList <:+ " not found".toList :=
    ⟨[Char.ofNat 32], by decide⟩
  have h2 : " not found".toList <:+ (toolNotFoundMsg name).toList := by
    refine ⟨("Tool " ++ sq ++ name ++ sq).toList, ?_⟩
    show ("Tool " ++ sq ++ name ++ sq).data ++ " not found".data
        = (toolNotFoundMsg name).data
    simp only [toolNotFoundMsg, String.data_append, List.append_assoc]
  exact (h1.trans h2).isInfix

/-- A tool call whose name resolves in no registry entry. -/
def tcMystery : ToolCall := ⟨"call_9", "mystery_tool", .noneV⟩

/-- C3 counterexample: for the unresolved name "mystery_tool" the
dispatcher produces the error payload whose message is
"Tool (quoted name) not found"; that message does not contain the word
"unknown", contrary to the claim. -/
theorem unknown_tool_message_counterexample :
    processToolCall demoRegistry demoDecode tcMystery
      = Message.tool "call_9" (Payload.error (toolNotFoundMsg "mystery_tool"))
    ∧ ¬ ("unknown".toList <:+: (toolNotFoundMsg "mystery_tool").toList) :=
  ⟨rfl, by decide⟩

/-- C3 (amended): for a tool call whose name does not resolve in the
registry, the dispatcher produces a `ToolMessage` whose payload is the
not-found error, whose message contains "not found" (not "unknown"),
without invoking any tool callable, and the turn still completes with a
final reply. -/
theorem unknown_tool_error_payload_turn_completes
    (llm_with_tools llm : List Message → Except String ModelResponse)
    (tool_by_name : String → Option ToolFn) (dec : String → Option ArgsMap)
    (history : List Message) (user_text : String) (first final : ModelResponse)
    (tc : ToolCall)
    (h0 : tool_by_name tc.name = none)
    (h1 : llm_with_tools (history ++ [Message.user user_text]) = .ok first)
    (h2 : first.tool_calls = [tc])
    (h3 : llm (history ++ [Message.user user_text]
            ++ [Message.assistant first.content first.tool_calls]
            ++ execute_tool_calls tool_by_name dec first.tool_calls) = .ok final) :
    process_user_message llm_with_tools llm tool_by_name dec history user_text =
      (history ++ [Message.user user_text]
        ++ [Message.assistant first.content [tc]]
        ++ [Message.tool tc.id (Payload.error (toolNotFoundMsg tc.name))]
        ++ [Message.assistant final.content []], true)
    ∧ "not found".toList <:+: (toolNotFoundMsg tc.name).toList := by
  have hexec : execute_tool_calls tool_by_name dec first.tool_calls
      = [Message.tool tc.id (Payload.error (toolNotFoundMsg tc.name))] := by
    rw [h2]
    simp [execute_tool_calls, processToolCall, h0]
  have hne : first.tool_calls ≠ [] := by rw [h2]; exact List.cons_ne_nil _ _
  have hmain := process_user_message_tools_eq llm_with_tools llm tool_by_name dec
    history user_text first final h1 hne h3
  rw [hexec, h2] at hmain
  exact ⟨hmain, notFound_in_msg tc.name⟩

/-- A model backend that always requests the unresolved `tcMystery`. -/
def lwtMystery : List Message → Except String ModelResponse := fun _ =>
  .ok ⟨"", [tcMystery]⟩

/-- Witness for the amended C3: a concrete turn requesting the
unresolved "mystery_tool". -/
theorem unknown_tool_error_payload_turn_completes_witness :
    process_user_message lwtMystery llmFinal demoRegistry demoDecode histSeed
        "use it" =
      (histSeed ++ [Message.user "use it"]
        ++ [Message.assistant "" [tcMystery]]
        ++ [Message.tool "call_9" (Payload.error (toolNotFoundMsg "mystery_tool"))]
        ++ [Message.assistant "The answer is 42" []], true)
    ∧ "not found".toList <:+: (toolNotFoundMsg "mystery_tool").toList :=
  unknown_tool_error_payload_turn_completes lwtMystery llmFinal demoRegistry
    demoDecode histSeed "use it" ⟨"", [tcMystery]⟩ ⟨"The answer is 42", []⟩
    tcMystery rfl rfl rfl rfl

/-- C4: a tool call whose known-tool arguments arrive as a non-empty raw
string that the decoder cannot parse is still dispatched: the raw string
is passed through unchanged as the argument of the resolved tool, and
the outcome of that invocation (success or captured error) becomes the
ToolMessage for the call, so the call is not failed and the turn is not
aborted. -/
theorem raw_argument_passthrough
    (tool_by_name : String → Option ToolFn) (dec : String → Option ArgsMap)
    (tc : ToolCall) (f : ToolFn) (s : String)
    (h1 : tc.args = .str s) (h2 : s ≠ "") (h3 : dec s = none)
    (h4 : tool_by_name tc.name = some f) :
    processToolCall tool_by_name dec tc =
      (match f (.raw s) with
       | .ok res => Message.tool tc.id (.result res)
       | .error e => Message.tool tc.id (.error (toolExecErrorMsg tc.name e))) := by
  have hn : normalizeArgs dec tc.args = .raw s := by
    rw [h1]
    simp [normalizeArgs, h2, h3]
  simp only [processToolCall]
  rw [h4, hn]

/-- A tool call for a known tool whose args are a non-decodable string. -/
def tcRaw : ToolCall := ⟨"call_4", "add", .str "not json"⟩

/-- Witness for C4: the raw string reaches the demo tool unchanged and
the call succeeds. -/
theorem raw_argument_passthrough_witness :
    tcRaw.args = .str "not json"
    ∧ "not json" ≠ ""
    ∧ demoDecode "not json" = none
    ∧ demoRegistry tcRaw.name = some demoTool
    ∧ processToolCall demoRegistry demoDecode tcRaw
        = Message.tool "call_4" (Payload.result ("raw:" ++ "not json")) :=
  ⟨rfl, by decide, rfl, rfl,
   raw_argument_passthrough demoRegistry demoDecode tcRaw demoTool "not json"
     rfl (by decide) rfl rfl⟩

/-- C7: a first model response with empty text and no tool calls is a
valid empty reply: it is appended and the turn completes normally. -/
theorem empty_reply_is_valid
    (llm_with_tools llm : List Message → Except String ModelResponse)
    (tool_by_name : String → Option ToolFn) (dec : String → Option ArgsMap)
    (history : List Message) (user_text : String)
    (h1 : llm_with_tools (history ++ [Message.user user_text]) = .ok ⟨"", []⟩) :
    process_user_message llm_with_tools llm tool_by_name dec history user_text =
      (history ++ [Message.user user_text] ++ [Message.assistant "" []], true) := by
  simp only [process_user_message]
  rw [h1]

/-- Witness for C7 at a concrete empty model reply. -/
theorem empty_reply_is_valid_witness :
    lwtEmptyReply (histSeed ++ [Message.user "hello"]) = .ok ⟨"", []⟩
    ∧ process_user_message lwtEmptyReply llmFinal demoRegistry demoDecode histSeed
        "hello" =
      (histSeed ++ [Message.user "hello"] ++ [Message.assistant "" []], true) :=
  ⟨rfl,
   empty_reply_is_valid lwtEmptyReply llmFinal demoRegistry demoDecode histSeed
     "hello" rfl⟩

/-! ### The math server (`server.py`)

`_as_number` converts its input to a float when possible (stripping
strings first) and returns `None` otherwise; floats are modelled as
rationals, with `float(inf)` a distinguished outcome of `divide`.
The string parser models `float(...)` on sign plus decimal literal,
which is the fragment the claims depend on. -/

/-- A Python value passed to a math tool. -/
inductive PyVal where
  | int : Int → PyVal
  | float : Rat → PyVal
  | str : String → PyVal
  | noneV : PyVal
deriving DecidableEq, Repr

/-- Decimal digits folded into a natural number. -/
def digitsToNat (cs : List Char) : Nat :=
  cs.foldl (fun a c => a * 10 + (c.toNat - 48)) 0

/-- Parse an unsigned decimal literal with an optional fractional part
(character 46 is the decimal point). -/
def parseUnsignedFloat (cs : List Char) : Option Rat :=
  let ip := cs.takeWhile (·.isDigit)
  let rest := cs.dropWhile (·.isDigit)
  match rest with
  | [] => if ip.isEmpty then none else some (digitsToNat ip : Rat)
  | c :: frac =>
    if c = Char.ofNat 46 then
      if frac.all (·.isDigit) && !(ip.isEmpty && frac.isEmpty) then
        some ((digitsToNat ip : Rat) + (digitsToNat frac : Rat) / ((10 : Rat) ^ frac.length))
      else none
    else none

/-- Model of Python `float(s)` on an already stripped string: optional
sign (characters 45 and 43) followed by a decimal literal. -/
def pyFloatOfString (s : String) : Option Rat :=
  match s.toList with
  | [] => none
  | c :: rest =>
    if c = Char.ofNat 45 then (parseUnsignedFloat rest).map (fun r => -r)
    else if c = Char.ofNat 43 then parseUnsignedFloat rest
    else parseUnsignedFloat (c :: rest)

/-- `server._as_number`: strings are stripped and parsed (a failing
`float(...)` raises `ValueError`, caught and turned into `None`);
ints and floats convert; every other input falls through to `None`. -/
def _as_number : PyVal → Option Rat
  | .str s => pyFloatOfString s.trim
  | .int n => some (n : Rat)
  | .float r => some r
  | .noneV => none

/-- Outcome of `server.divide`: a float value, `float(inf)`, or an
uncaught `TypeError` (arithmetic on `None` when a conversion failed). -/
inductive DivOutcome where
  | val : Rat → DivOutcome
  | posInf : DivOutcome
  | typeError : DivOutcome
deriving DecidableEq, Repr

/-- `server.divide`: converts the denominator, returns `float(inf)`
when it equals 0, otherwise divides the converted numerator by it
(`None == 0` is false in Python, so a failed conversion reaches the
division and raises `TypeError`). -/
def divide (a b : PyVal) : DivOutcome :=
  let denominator := _as_number b
  if denominator = some 0 then .posInf
  else
    match _as_number a, denominator with
    | some n, some d => .val (n / d)
    | _, _ => .typeError

/-- C8: whenever the numeric conversion of the denominator equals 0 the
divide tool returns positive infinity (no division-by-zero error is
possible), and whenever both conversions succeed with a nonzero
denominator it returns the quotient of the converted values. -/
theorem divide_zero_denominator_inf
    (a b : PyVal) :
    (_as_number b = some 0 → divide a b = DivOutcome.posInf)
    ∧ (∀ qa qb : Rat, _as_number a = some qa → _as_number b = some qb → qb ≠ 0 →
        divide a b = DivOutcome.val (qa / qb)) := by
  constructor
  · intro hb
    simp only [divide]
    rw [hb]
    simp
  · intro qa qb ha hb hq
    simp only [divide]
    rw [ha, hb]
    simp [hq]

/-- Witness for C8 at concrete inputs: denominator converting to zero,
and a plain nonzero division. -/
theorem divide_zero_denominator_inf_witness :
    _as_number (PyVal.float 0) = some 0
    ∧ divide (PyVal.int 10) (PyVal.float 0) = DivOutcome.posInf
    ∧ _as_number (PyVal.float 7) = some 7
    ∧ _as_number (PyVal.float 2) = some 2
    ∧ (2 : Rat) ≠ 0
    ∧ divide (PyVal.float 7) (PyVal.float 2) = DivOutcome.val ((7 : Rat) / 2) :=
  ⟨rfl,
   (divide_zero_denominator_inf (PyVal.int 10) (PyVal.float 0)).1 rfl,
   rfl, rfl, by decide,
   (divide_zero_denominator_inf (PyVal.float 7) (PyVal.float 2)).2 7 2 rfl rfl
     (by decide)⟩

/-! ### The demo dice server (`main.py`)

`roll_dice(rolls)` returns `[random.randint(1, 6) for _ in range(1, rolls)]`.
`random.randint` is external: the parameter `randint` gives the value of
the i-th draw, and its stdlib contract keeps each draw within 1..6.
`range(1, rolls)` iterates `rolls - 1` times (never negatively). -/

/-- `main.roll_dice`, with the external random stream as a parameter. -/
def roll_dice (randint : Nat → Nat) (rolls : Int) : List Nat :=
  (List.range (rolls - 1).toNat).map randint

/-- C9: for rolls >= 1, `roll_dice` returns exactly `rolls - 1` values,
each between 1 and 6 when the random source honours its contract, and
in particular `roll_dice 1` is empty. -/
theorem roll_dice_offByOne_length
    (randint : Nat → Nat) (rolls : Int)
    (hr : ∀ i, 1 ≤ randint i ∧ randint i ≤ 6)
    (h1 : 1 ≤ rolls) :
    ((roll_dice randint rolls).length : Int) = rolls - 1
    ∧ (∀ x ∈ roll_dice randint rolls, 1 ≤ x ∧ x ≤ 6)
    ∧ roll_dice randint 1 = [] := by
  refine ⟨?_, ?_, ?_⟩
  · simp only [roll_dice, List.length_map, List.length_range]
    omega
  · intro x hx
    simp only [roll_dice, List.mem_map, List.mem_range] at hx
    obtain ⟨i, _, rfl⟩ := hx
    exact hr i
  · simp [roll_dice]

/-- A fixed random stream for the dice witness. -/
def wRandint : Nat → Nat := fun _ => 3

/-- Witness for C9 with a constant in-range random stream and 4 rolls. -/
theorem roll_dice_offByOne_length_witness :
    (∀ i, 1 ≤ wRandint i ∧ wRandint i ≤ 6)
    ∧ (1 : Int) ≤ 4
    ∧ (((roll_dice wRandint 4).length : Int) = 4 - 1
        ∧ (∀ x ∈ roll_dice wRandint 4, 1 ≤ x ∧ x ≤ 6)
        ∧ roll_dice wRandint 1 = []) :=
  ⟨fun i => ⟨by simp [wRandint], by simp [wRandint]⟩,
   by decide,
   roll_dice_offByOne_length wRandint 4
     (fun i => ⟨by simp [wRandint], by simp [wRandint]⟩) (by decide)⟩

/-! ### The configuration loader (`config_loader.py`)

`get_enabled_servers` keeps the servers whose `enabled` value (default
`True`) is truthy in the Python sense, then pops the `enabled` key in
place from each kept server dict.  YAML scalar values and Python
truthiness are modelled explicitly; a dict is an association list with
unique keys.  Because the returned dicts are the same objects as those
of the input configuration, the in-place `pop` is modelled by returning
the post-call state of the whole `servers` mapping alongside the
result. -/

/-- A YAML scalar in a server configuration entry. -/
inductive YVal where
  | bool : Bool → YVal
  | int : Int → YVal
  | str : String → YVal
  | null : YVal
deriving DecidableEq, Repr

/-- Python truthiness of a YAML scalar. -/
def YVal.truthy : YVal → Bool
  | .bool b => b
  | .int n => n != 0
  | .str s => s != ""
  | .null => false

/-- A server configuration dictionary (unique keys). -/
abbrev ServerConfig := List (String × YVal)

/-- Python `d.get(k, default)`. -/
def dictGetD (d : ServerConfig) (k : String) (dflt : YVal) : YVal :=
  match d.find? (fun p => p.1 == k) with
  | some p => p.2
  | none => dflt

/-- Python `d.pop(k, None)` as the dictionary state after removal. -/
def dictPopKey (d : ServerConfig) (k : String) : ServerConfig :=
  d.filter (fun p => p.1 != k)

/-- `config_loader.get_enabled_servers` over the `servers` mapping:
first component the returned mapping of enabled servers (with `enabled`
popped), second component the state of the input `servers` mapping
after the call (kept servers mutated in place, others untouched). -/
def get_enabled_servers (servers : List (String × ServerConfig)) :
    List (String × ServerConfig) × List (String × ServerConfig) :=
  let keep := fun p : String × ServerConfig =>
    (dictGetD p.2 "enabled" (.bool true)).truthy
  let result := (servers.filter keep).map fun p => (p.1, dictPopKey p.2 "enabled")
  let post := servers.map fun p =>
    if keep p then (p.1, dictPopKey p.2 "enabled") else p
  (result, post)

/-- Popping `enabled` never changes the lookup of any other key. -/
theorem dictPopKey_preserves_other_keys (cfg : ServerConfig) (k : String)
    (d : YVal) (hk : k ≠ "enabled") :
    dictGetD (dictPopKey cfg "enabled") k d = dictGetD cfg k d := by
  induction cfg with
  | nil => rfl
  | cons p rest ih =>
    by_cases hpe : p.1 = "enabled"
    · have hpk : (p.1 == k) = false := by
        rw [hpe]
        exact beq_eq_false_iff_ne.mpr fun h => hk h.symm
      simp only [dictPopKey, List.filter_cons, hpe] at ih ⊢
      simp only [dictGetD, List.find?, hpk, bne_self_eq_false] at ih ⊢
      exact ih
    · have hne : (p.1 != "enabled") = true := by
        simpa using hpe
      by_cases hpk : p.1 = k
      · simp [dictPopKey, dictGetD, List.filter_cons, List.find?, hne, hpk, hk]
      · have hpk' : (p.1 == k) = false := beq_eq_false_iff_ne.mpr hpk
        simp only [dictPopKey, List.filter_cons, hne, if_true] at ih ⊢
        simp only [dictGetD, List.find?, hpk'] at ih ⊢
        exact ih

/-- The servers mapping of a configuration with one server whose
`enabled` value is YAML null (`enabled:` with no value). -/
def srvNull : List (String × ServerConfig) :=
  [("s", [("enabled", YVal.null), ("cmd", YVal.str "python")])]

/-- C10 counterexample: the value `enabled: null` is not the boolean
`False`, yet the server is excluded from the result — the code tests
Python truthiness, not "is not False". -/
theorem enabled_not_false_counterexample :
    (get_enabled_servers srvNull).1 = []
    ∧ YVal.null ≠ YVal.bool false :=
  ⟨rfl, by decide⟩

/-- C10 (amended): the function returns exactly the servers whose
`enabled` value is truthy under Python truthiness (absent counts as
enabled), each with the `enabled` key removed; the removal mutates the
corresponding server dicts of the input configuration in place (kept
servers lose the key, excluded servers are untouched), and removing the
key leaves the lookup of every other key unchanged. -/
theorem get_enabled_servers_spec
    (servers : List (String × ServerConfig)) (name : String) (cfg : ServerConfig) :
    ((name, cfg) ∈ (get_enabled_servers servers).1 ↔
      ∃ cfg0, (name, cfg0) ∈ servers
        ∧ (dictGetD cfg0 "enabled" (.bool true)).truthy = true
        ∧ cfg = dictPopKey cfg0 "enabled")
    ∧ ((name, cfg) ∈ servers →
        (if (dictGetD cfg "enabled" (.bool true)).truthy
          then (name, dictPopKey cfg "enabled") else (name, cfg))
          ∈ (get_enabled_servers servers).2)
    ∧ (∀ k d, k ≠ "enabled" →
        dictGetD (dictPopKey cfg "enabled") k d = dictGetD cfg k d) := by
  refine ⟨?_, ?_, fun k d hk => dictPopKey_preserves_other_keys cfg k d hk⟩
  · simp only [get_enabled_servers]
    constructor
    · intro h
      rcases List.mem_map.mp h with ⟨p, hp, he⟩
      rcases List.mem_filter.mp hp with ⟨hmem, hkeep⟩
      obtain ⟨pn, pc⟩ := p
      obtain ⟨hn, hc⟩ := Prod.mk.injEq .. ▸ he
      exact ⟨pc, hn ▸ hmem, hkeep, hc.symm⟩
    · rintro ⟨cfg0, hmem, hkeep, rfl⟩
      exact List.mem_map.mpr ⟨(name, cfg0), List.mem_filter.mpr ⟨hmem, hkeep⟩, rfl⟩
  · intro hmem
    simp only [get_enabled_servers]
    exact List.mem_map.mpr ⟨(name, cfg), hmem, rfl⟩

/-- A server configuration mapping used by the C10 witness. -/
def srvMix : List (String × ServerConfig) :=
  [("a", [("cmd", YVal.str "python")]),
   ("b", [("enabled", YVal.bool false), ("cmd", YVal.str "node")])]

/-- Witness for the amended C10: the implicitly enabled server is kept
(unchanged apart from the absent `enabled` key), the disabled one stays
untouched in the post-call configuration, and other keys survive the
removal. -/
theorem get_enabled_servers_spec_witness :
    ("a", [("cmd", YVal.str "python")]) ∈ (get_enabled_servers srvMix).1
    ∧ ("b", [("enabled", YVal.bool false), ("cmd", YVal.str "node")])
        ∈ (get_enabled_servers srvMix).2
    ∧ dictGetD (dictPopKey [("enabled", YVal.bool false), ("cmd", YVal.str "node")]
          "enabled") "cmd" YVal.null
        = dictGetD [("enabled", YVal.bool false), ("cmd", YVal.str "node")]
          "cmd" YVal.null :=
  ⟨(get_enabled_servers_spec srvMix "a" [("cmd", YVal.str "python")]).1.mpr
      ⟨[("cmd", YVal.str "python")], by decide, rfl, rfl⟩,
   (get_enabled_servers_spec srvMix "b"
      [("enabled", YVal.bool false), ("cmd", YVal.str "node")]).2.1 (by decide),
   (get_enabled_servers_spec srvMix "b"
      [("enabled", YVal.bool false), ("cmd", YVal.str "node")]).2.2 "cmd" YVal.null
      (by decide)⟩

end McpChat
